import Mathlib

/-!
Shallow embedding of the process-orchestration core of the MeerAI VS Code
extension (`src/meerAiClient.ts`): the bounded stream accumulator
(`appendWithLimit`), the command tokenizer (`parseCommand`), the pre-spawn
phase of `ask` that builds the spawn request, the `close` handler that
settles the ask promise, and the spawn error normalizer (`normalizeError`).

JavaScript strings are modelled as `String` / `List Char`.
`Buffer.from(s, 'utf8')` is modelled by an explicit UTF-8 encoder producing
`List Nat` (byte values), and `Buffer.prototype.toString('utf8')` by a
WHATWG-style lossy decoder in which every maximal invalid subpart of a byte
sequence is replaced by U+FFFD, matching Node's replacement behaviour.
-/

/-- The set of characters matched by the JavaScript regexp class `\s`, which
is also the set trimmed by `String.prototype.trim` (ECMA-262 WhiteSpace plus
LineTerminator). -/
def isJsSpace (c : Char) : Bool :=
  let n := c.toNat
  n == 0x20 || (0x9 ≤ n && n ≤ 0xD) || n == 0xA0 || n == 0x1680 ||
  (0x2000 ≤ n && n ≤ 0x200A) || n == 0x2028 || n == 0x2029 || n == 0x202F ||
  n == 0x205F || n == 0x3000 || n == 0xFEFF

/-- `String.prototype.trim` on a character list: drop leading and trailing
JavaScript whitespace. -/
def jsTrimList (l : List Char) : List Char :=
  ((l.dropWhile isJsSpace).reverse.dropWhile isJsSpace).reverse

/-- `String.prototype.trim`. -/
def jsTrim (s : String) : String :=
  String.mk (jsTrimList s.data)

/-- UTF-8 encoding of a single Unicode scalar value, as byte values. -/
def utf8EncodeChar (c : Char) : List Nat :=
  let n := c.toNat
  if n < 0x80 then [n]
  else if n < 0x800 then [0xC0 + n / 0x40, 0x80 + n % 0x40]
  else if n < 0x10000 then [0xE0 + n / 0x1000, 0x80 + n / 0x40 % 0x40, 0x80 + n % 0x40]
  else [0xF0 + n / 0x40000, 0x80 + n / 0x1000 % 0x40, 0x80 + n / 0x40 % 0x40, 0x80 + n % 0x40]

/-- `Buffer.from(s, 'utf8')`: the UTF-8 encoding of a string, as byte values. -/
def utf8Encode (s : List Char) : List Nat :=
  (s.map utf8EncodeChar).flatten

/-- U+FFFD REPLACEMENT CHARACTER, substituted for invalid byte sequences by
Node's lossy UTF-8 decoding. -/
def replacementChar : Char := Char.ofNat 0xFFFD

/-- UTF-8 continuation byte test (`0x80..0xBF`). -/
def isUtf8Cont (b : Nat) : Bool := 0x80 ≤ b && b ≤ 0xBF

/-- Fuel-based worker for the lossy UTF-8 decoder. Each step consumes at least
one byte, so fuel equal to the byte count suffices; fuel 0 with a nonempty list
is unreachable from `utf8DecodeLossy`. -/
def utf8DecodeLossyAux : Nat → List Nat → List Char
  | _, [] => []
  | 0, _ :: _ => []
  | fuel + 1, b1 :: rest =>
    if b1 < 0x80 then Char.ofNat b1 :: utf8DecodeLossyAux fuel rest
    else if b1 < 0xC2 then replacementChar :: utf8DecodeLossyAux fuel rest
    else if b1 < 0xE0 then
      match rest with
      | [] => [replacementChar]
      | b2 :: rest2 =>
        if isUtf8Cont b2 then
          Char.ofNat ((b1 - 0xC0) * 0x40 + (b2 - 0x80)) :: utf8DecodeLossyAux fuel rest2
        else replacementChar :: utf8DecodeLossyAux fuel rest
    else if b1 < 0xF0 then
      match rest with
      | [] => [replacementChar]
      | b2 :: rest2 =>
        let lo2 := if b1 == 0xE0 then 0xA0 else 0x80
        let hi2 := if b1 == 0xED then 0x9F else 0xBF
        if lo2 ≤ b2 && b2 ≤ hi2 then
          match rest2 with
          | [] => [replacementChar]
          | b3 :: rest3 =>
            if isUtf8Cont b3 then
              Char.ofNat ((b1 - 0xE0) * 0x1000 + (b2 - 0x80) * 0x40 + (b3 - 0x80)) ::
                utf8DecodeLossyAux fuel rest3
            else replacementChar :: utf8DecodeLossyAux fuel rest2
        else replacementChar :: utf8DecodeLossyAux fuel rest
    else if b1 < 0xF5 then
      match rest with
      | [] => [replacementChar]
      | b2 :: rest2 =>
        let lo2 := if b1 == 0xF0 then 0x90 else 0x80
        let hi2 := if b1 == 0xF4 then 0x8F else 0xBF
        if lo2 ≤ b2 && b2 ≤ hi2 then
          match rest2 with
          | [] => [replacementChar]
          | b3 :: rest3 =>
            if isUtf8Cont b3 then
              match rest3 with
              | [] => [replacementChar]
              | b4 :: rest4 =>
                if isUtf8Cont b4 then
                  Char.ofNat
                    ((b1 - 0xF0) * 0x40000 + (b2 - 0x80) * 0x1000 +
                     (b3 - 0x80) * 0x40 + (b4 - 0x80)) :: utf8DecodeLossyAux fuel rest4
                else replacementChar :: utf8DecodeLossyAux fuel rest3
            else replacementChar :: utf8DecodeLossyAux fuel rest2
        else replacementChar :: utf8DecodeLossyAux fuel rest
    else replacementChar :: utf8DecodeLossyAux fuel rest
/-- `Buffer.prototype.toString('utf8')`: WHATWG-style lossy UTF-8 decoding.
Each maximal subpart of an invalid sequence is replaced by U+FFFD. -/
def utf8DecodeLossy (l : List Nat) : List Char :=
  utf8DecodeLossyAux l.length l

/-- `MeerAiClient.appendWithLimit`: append `incoming` to `current`, then if the
UTF-8 byte length of the concatenation exceeds `limitBytes`, keep only the last
`limitBytes` bytes and decode them lossily back to a string. (`Math.max(0, n)`
on the drop index is subsumed by truncated `Nat` subtraction.) -/
def appendWithLimit (current incoming : List Char) (limitBytes : Nat) : List Char :=
  if incoming = [] then current
  else
    let combined := current ++ incoming
    let asBuffer := utf8Encode combined
    if asBuffer.length ≤ limitBytes then combined
    else utf8DecodeLossy (asBuffer.drop (asBuffer.length - limitBytes))

/-- `appendWithLimit` folded over a sequence of incoming chunks, starting from
buffer `current`: the accumulated buffer after every chunk handler has run. -/
def foldAppend (current : List Char) (chunks : List (List Char)) (limitBytes : Nat) : List Char :=
  chunks.foldl (fun b c => appendWithLimit b c limitBytes) current

/-- A character that the regexp alternative `[^\s"']+` accepts: not JavaScript
whitespace and not a quote. -/
def isPlainChar (c : Char) : Bool := !(isJsSpace c) && c != '"' && c != '\''

/-- Match the regexp alternative `"[^"]*"` or `'[^']*'` whose opening quote `q`
has already been consumed: succeeds only when a closing quote exists, returning
the segment with both quotes and the remaining input. -/
def matchQuoted (q : Char) (cs : List Char) : Option (List Char × List Char) :=
  if cs.contains q then
    some (q :: (cs.takeWhile (fun x => x != q) ++ [q]),
          (cs.dropWhile (fun x => x != q)).drop 1)
  else none

/-- One segment of the tokenizing regexp `(?:[^\s"']+|"[^"]*"|'[^']*')+`
matched at the head of the input: a quoted run or a maximal run of plain
characters. The three alternatives start with disjoint character sets, so the
regexp engine's match here is deterministic. -/
def matchSegment : List Char → Option (List Char × List Char)
  | [] => none
  | c :: cs =>
    if c == '"' then matchQuoted '"' cs
    else if c == '\'' then matchQuoted '\'' cs
    else if isPlainChar c then
      some ((c :: cs).takeWhile isPlainChar, (c :: cs).dropWhile isPlainChar)
    else none

/-- The `+` of the tokenizing regexp: greedily concatenate adjacent segments
into one token. Fuel-based; each segment consumes at least one character. -/
def tokenFrom : Nat → List Char → List Char × List Char
  | 0, s => ([], s)
  | fuel + 1, s =>
    match matchSegment s with
    | none => ([], s)
    | some (seg, rest) =>
      let (more, rest2) := tokenFrom fuel rest
      (seg ++ more, rest2)

/-- The global (`/g`) scan of `String.prototype.match`: collect every token,
advancing one character past positions where no match starts. -/
def scanTokens : Nat → List Char → List (List Char)
  | 0, _ => []
  | _ + 1, [] => []
  | fuel + 1, c :: cs =>
    match matchSegment (c :: cs) with
    | none => scanTokens fuel cs
    | some _ =>
      let (tok, rest) := tokenFrom (fuel + 1) (c :: cs)
      tok :: scanTokens fuel rest

/-- `commandLine.match(/(?:[^\s"']+|"[^"]*"|'[^']*')+/g)`: the tokens the
global regexp finds, in order; `[]` when there is no match (JS `null`). -/
def tokenize (l : List Char) : List (List Char) :=
  scanTokens l.length l

/-- The per-segment callback of `parseCommand`: trim the segment, then strip
one layer of same-kind surrounding quotes (`slice(1, -1)`). -/
def stripQuotes (segment : List Char) : List Char :=
  let trimmed := jsTrimList segment
  if (trimmed.head? == some '"' && trimmed.getLast? == some '"') ||
     (trimmed.head? == some '\'' && trimmed.getLast? == some '\'') then
    (trimmed.drop 1).dropLast
  else trimmed

/-- The `CommandParts` interface: resolved executable and argument vector. -/
structure CommandParts where
  executable : String
  args : List String
deriving DecidableEq

/-- The two failures `parseCommand` can throw, named after the spec's error
taxonomy: `configurationError` is the empty-command throw and `parseError` the
zero-token throw. The source distinguishes them only by message text. -/
inductive ParseFailure where
  | configurationError (message : String)
  | parseError (message : String)
deriving DecidableEq

/-- `['.cmd', '.exe', '.bat', '.com'].some((ext) => command.toLowerCase().endsWith(ext))`. -/
def hasExecutableExtension (command : String) : Bool :=
  [".cmd", ".exe", ".bat", ".com"].any (fun ext => command.toLower.endsWith ext)

/-- `MeerAiClient.parseCommand`. The platform test `process.platform === 'win32'`
is the parameter `isWin32`, and the filesystem probe `commandExists` (absolute
path or PATH lookup) is the parameter `commandExists`: both read the host
environment, not the input string. -/
def parseCommand (isWin32 : Bool) (commandExists : String → Bool)
    (commandLine : String) : Except ParseFailure CommandParts :=
  if commandLine = "" then
    .error (.configurationError "MeerAI CLI command is empty.")
  else
    let segments := (tokenize commandLine.data).map (fun s => String.mk (stripQuotes s))
    match segments with
    | [] =>
      .error (.parseError ("Unable to parse MeerAI CLI command: \"" ++ commandLine ++ "\""))
    | first :: restArgs =>
      let executable :=
        if isWin32 && !(hasExecutableExtension first) && commandExists (first ++ ".cmd")
        then first ++ ".cmd" else first
      .ok ⟨executable, restArgs⟩

/-- What `ask` hands to `spawn`: the executable, the argument vector, and the
`shell: false` spawn option (shell interpretation disabled). -/
structure SpawnRequest where
  executable : String
  argv : List String
  shell : Bool
deriving DecidableEq

/-- The pre-spawn phase of `MeerAiClient.ask`: trim the configured command
string, resolve it through `parseCommand`, and build the spawn request with
argument vector `[...args, 'ask', question]` and `shell: false`. A thrown
`ParseFailure` propagates as `Except.error`; in that case no spawn request
exists, so no child process is spawned. -/
def askPrepare (isWin32 : Bool) (commandExists : String → Bool)
    (rawCliCommand question : String) : Except ParseFailure SpawnRequest :=
  let commandLine := jsTrim rawCliCommand
  match parseCommand isWin32 commandExists commandLine with
  | .error e => .error e
  | .ok parts => .ok ⟨parts.executable, parts.args ++ ["ask", question], false⟩

/-- How the promise returned by `ask` settles. -/
inductive AskOutcome where
  | resolved (response : String)
  | rejected (message : String)
deriving DecidableEq

/-- JS template rendering of the close event's `code` value (`number | null`). -/
def renderExitCode : Option Int → String
  | some n => toString n
  | none => "null"

/-- The `close` handler of `ask`: exit code 0 resolves with the trimmed stdout
buffer; otherwise a requested cancellation rejects with "Request cancelled.";
otherwise the rejection message is the trimmed stderr when non-empty (JS `||`
on the falsy empty string), else the generic exit-code message. -/
def closeHandler (code : Option Int) (cancelRequested : Bool)
    (stdoutBuffer stderrBuffer : String) : AskOutcome :=
  if code = some 0 then .resolved (jsTrim stdoutBuffer)
  else if cancelRequested then .rejected "Request cancelled."
  else if jsTrim stderrBuffer = "" then
    .rejected ("MeerAI CLI exited with code " ++ renderExitCode code ++ ".")
  else .rejected (jsTrim stderrBuffer)

/-- String-level wrapper of `appendWithLimit`. -/
def appendWithLimitS (current incoming : String) (limitBytes : Nat) : String :=
  String.mk (appendWithLimit current.data incoming.data limitBytes)

/-- One firing of the stdout `data` handler: the accumulated buffer is extended
through `appendWithLimit`, and the raw chunk is forwarded to `onData`. The
second component records the chunks `onData` has received, in order. -/
def stdoutDataHandler (limitBytes : Nat) (st : String × List String) (data : String) :
    String × List String :=
  (appendWithLimitS st.1 data limitBytes, st.2 ++ [data])

/-- The stdout stream of one invocation: every chunk runs the data handler,
starting from the empty buffer and no `onData` deliveries yet. -/
def runStdoutPhase (limitBytes : Nat) (chunks : List String) : String × List String :=
  chunks.foldl (stdoutDataHandler limitBytes) ("", [])

/-- A Node `Error` as `normalizeError` inspects it: the optional `code`
property (`'ENOENT'`, `'EINVAL'`, ...) and the message. -/
structure JsError where
  code : Option String
  message : String
deriving DecidableEq

/-- The EINVAL branch's `args.map((arg) => `"${arg}"`).join(' ')`. -/
def renderedArgs (args : List String) : String :=
  String.intercalate " " (args.map (fun arg => "\"" ++ arg ++ "\""))

/-- `MeerAiClient.normalizeError`: an ENOENT or EINVAL spawn failure is
rewrapped into a remediation message; every other error is returned unchanged
(the same error value, not re-wrapped). -/
def normalizeError (error : JsError) (executable cwd originalCommand : String)
    (args : List String) : JsError :=
  if error.code = some "ENOENT" then
    ⟨none, "MeerAI CLI command not found: \"" ++ executable ++
      "\". Update the \"meerai.cliCommand\" setting or ensure the MeerAI CLI is installed. (cwd: "
      ++ cwd ++ ")"⟩
  else if error.code = some "EINVAL" then
    ⟨none,
      "MeerAI could not start the CLI (spawn EINVAL). Verify the \"meerai.cliCommand\" setting is correct (currently \""
      ++ originalCommand ++ "\") and points to an executable. Try running:\n\n"
      ++ executable ++ " " ++ renderedArgs args ++ "\n\nfrom a terminal in " ++ cwd ++ "."⟩
  else error

/-- `needle` occurs as a contiguous substring of `hay`. -/
def isSubstr (needle hay : List Char) : Bool :=
  (List.range (hay.length + 1)).any (fun i => needle.isPrefixOf (hay.drop i))

/-! Helper lemmas. -/

theorem isPrefixOf_self_append (x b : List Char) : x.isPrefixOf (x ++ b) = true := by
  rw [ List.isPrefixOf_iff_prefix]
  exact ⟨b, rfl⟩

theorem isSubstr_of_decomp (x h a b : List Char) (hd : h = a ++ (x ++ b)) :
    isSubstr x h = true := by
  subst hd
  rw [isSubstr, List.any_eq_true]
  refine ⟨a.length, List.mem_range.mpr ?_, ?_⟩
  · simp [List.length_append]
    omega
  · rw [List.drop_left]
    exact isPrefixOf_self_append x b

theorem suffix_append_right {a b : List Char} (h : a <:+ b) (t : List Char) :
    a ++ t <:+ b ++ t := by
  obtain ⟨u, hu⟩ := h
  exact ⟨u, by rw [← hu, List.append_assoc]⟩

theorem utf8EncodeChar_ascii (c : Char) (h : c.toNat < 128) :
    utf8EncodeChar c = [c.toNat] := by
  simp [utf8EncodeChar, h]

theorem utf8Encode_ascii (s : List Char) (h : ∀ c ∈ s, c.toNat < 128) :
    utf8Encode s = s.map Char.toNat := by
  induction s with
  | nil => rfl
  | cons c cs ih =>
    have hc : c.toNat < 128 := h c (by simp)
    have ih2 := ih (fun x hx => h x (by simp [hx]))
    show utf8EncodeChar c ++ (cs.map utf8EncodeChar).flatten = c.toNat :: cs.map Char.toNat
    rw [utf8EncodeChar_ascii c hc]
    simpa [utf8Encode] using ih2

theorem utf8DecodeLossyAux_ascii (fuel : Nat) (l : List Nat) (hf : l.length ≤ fuel)
    (h : ∀ b ∈ l, b < 128) : utf8DecodeLossyAux fuel l = l.map Char.ofNat := by
  induction fuel generalizing l with
  | zero =>
    cases l with
    | nil => rfl
    | cons b bs => simp at hf
  | succ fuel ih =>
    cases l with
    | nil => rfl
    | cons b bs =>
      have hb : b < 128 := h b (by simp)
      have hstep : utf8DecodeLossyAux (fuel + 1) (b :: bs) =
          Char.ofNat b :: utf8DecodeLossyAux fuel bs := by
        simp [utf8DecodeLossyAux, hb]
      rw [hstep, ih bs (by simpa using Nat.le_of_succ_le_succ hf)
        (fun x hx => h x (by simp [hx]))]
      rfl

theorem utf8DecodeLossy_ascii (l : List Nat) (h : ∀ b ∈ l, b < 128) :
    utf8DecodeLossy l = l.map Char.ofNat :=
  utf8DecodeLossyAux_ascii l.length l (Nat.le_refl _) h

theorem appendWithLimit_ascii (current incoming : List Char) (limitBytes : Nat)
    (h : ∀ c ∈ current ++ incoming, c.toNat < 128) :
    appendWithLimit current incoming limitBytes =
      if incoming = [] then current
      else if (current ++ incoming).length ≤ limitBytes then current ++ incoming
      else (current ++ incoming).drop ((current ++ incoming).length - limitBytes) := by
  rw [appendWithLimit]
  by_cases hinc : incoming = []
  · simp [hinc]
  · simp only [hinc, if_false]
    rw [utf8Encode_ascii _ h, List.length_map]
    by_cases hlen : (current ++ incoming).length ≤ limitBytes
    · rw [if_pos hlen, if_pos hlen]
    · rw [if_neg hlen, if_neg hlen]
      rw [← List.map_drop]
      rw [utf8DecodeLossy_ascii]
      · rw [List.map_map]
        have hid : Char.ofNat ∘ Char.toNat = id := funext Char.ofNat_toNat
        rw [hid, List.map_id]
      · intro x hx
        obtain ⟨c, hc, rfl⟩ := List.mem_map.mp hx
        exact h c (List.mem_of_mem_drop hc)

theorem foldAppend_ascii_inv (limitBytes : Nat) (chunks : List (List Char))
    (current : List Char)
    (hch : ∀ ch ∈ chunks, ∀ c ∈ ch, c.toNat < 128)
    (hcur : ∀ c ∈ current, c.toNat < 128)
    (hlen : current.length ≤ limitBytes) :
    (∀ c ∈ foldAppend current chunks limitBytes, c.toNat < 128) ∧
    (foldAppend current chunks limitBytes).length ≤ limitBytes ∧
    foldAppend current chunks limitBytes <:+ current ++ chunks.flatten := by
  induction chunks generalizing current with
  | nil => exact ⟨hcur, hlen, by simp [foldAppend]⟩
  | cons ch chunks ih =>
    have hchc : ∀ c ∈ ch, c.toNat < 128 := hch ch (by simp)
    have hcomb : ∀ c ∈ current ++ ch, c.toNat < 128 := by
      intro c hc
      rcases List.mem_append.mp hc with h1 | h1
      exacts [hcur c h1, hchc c h1]
    have hstep := appendWithLimit_ascii current ch limitBytes hcomb
    have hb1 : (∀ c ∈ appendWithLimit current ch limitBytes, c.toNat < 128) ∧
        (appendWithLimit current ch limitBytes).length ≤ limitBytes ∧
        appendWithLimit current ch limitBytes <:+ current ++ ch := by
      rw [hstep]
      by_cases h0 : ch = []
      · rw [if_pos h0, h0]
        exact ⟨hcur, hlen, by simp⟩
      · rw [if_neg h0]
        by_cases h1 : (current ++ ch).length ≤ limitBytes
        · rw [if_pos h1]
          exact ⟨hcomb, h1, List.suffix_refl _⟩
        · rw [if_neg h1]
          refine ⟨fun c hc => hcomb c (List.mem_of_mem_drop hc), ?_, List.drop_suffix _ _⟩
          rw [List.length_drop]
          omega
    obtain ⟨ha1, hl1, hs1⟩ := hb1
    have hrest := ih (appendWithLimit current ch limitBytes)
      (fun ch2 hch2 => hch ch2 (by simp [hch2])) ha1 hl1
    refine ⟨hrest.1, hrest.2.1, ?_⟩
    have h2 := suffix_append_right hs1 chunks.flatten
    have h3 := hrest.2.2.trans h2
    show foldAppend (appendWithLimit current ch limitBytes) chunks limitBytes <:+
      current ++ (ch :: chunks).flatten
    simpa [List.append_assoc] using h3

theorem stdoutFold_onData (limitBytes : Nat) (chunks : List String) (b : String)
    (acc : List String) :
    (chunks.foldl (stdoutDataHandler limitBytes) (b, acc)).2 = acc ++ chunks := by
  induction chunks generalizing b acc with
  | nil => simp
  | cons ch chunks ih => simp [stdoutDataHandler, ih]

/-! Claim theorems. -/

/-- Claim C1, as stated, is false at a concrete input: with starting buffer `""`,
the single chunk `"é"` and the positive limit 1 byte, truncation cuts the two-byte
UTF-8 sequence of `é`, the lossy decode turns the kept continuation byte into
U+FFFD, and the returned buffer re-encodes to 3 bytes > 1 and is not a suffix of
the unbounded concatenation. -/
theorem c1_counterexample :
    ¬ ((utf8Encode (foldAppend [] ["é".data] 1)).length ≤ 1 ∧
       foldAppend [] ["é".data] 1 <:+ [] ++ ["é".data].flatten) := by
  decide

/-- Claim C1 (amended): for every starting buffer already within the limit, every
sequence of chunks, and every positive `limitBytes`, PROVIDED all characters are
ASCII (so truncation can never split a multi-byte code point), the UTF-8 byte
length of the accumulated buffer is at most `limitBytes` after the calls, and the
buffer is a suffix of the unbounded concatenation. Quantifying over all chunk
lists gives the invariant after each call, since every prefix of a chunk
sequence is itself a chunk list. -/
theorem c1_bounded_accumulator_invariant (current : List Char)
    (chunks : List (List Char)) (limitBytes : Nat) (hpos : 0 < limitBytes)
    (hcur : ∀ c ∈ current, c.toNat < 128)
    (hinit : (utf8Encode current).length ≤ limitBytes)
    (hch : ∀ ch ∈ chunks, ∀ c ∈ ch, c.toNat < 128) :
    (utf8Encode (foldAppend current chunks limitBytes)).length ≤ limitBytes ∧
    foldAppend current chunks limitBytes <:+ current ++ chunks.flatten := by
  have hlen : current.length ≤ limitBytes := by
    rwa [utf8Encode_ascii current hcur, List.length_map] at hinit
  obtain ⟨ha, hl, hs⟩ := foldAppend_ascii_inv limitBytes chunks current hch hcur hlen
  exact ⟨by rwa [utf8Encode_ascii _ ha, List.length_map], hs⟩

/-- Witness for the amended claim C1 at a concrete input where truncation fires:
buffer "ab", chunks "cd" then "ef", limit 3 bytes. -/
theorem c1_bounded_accumulator_invariant_witness :
    (utf8Encode (foldAppend "ab".data ["cd".data, "ef".data] 3)).length ≤ 3 ∧
    foldAppend "ab".data ["cd".data, "ef".data] 3 <:+
      "ab".data ++ ["cd".data, "ef".data].flatten :=
  c1_bounded_accumulator_invariant "ab".data ["cd".data, "ef".data] 3
    (by decide) (by decide) (by decide) (by decide)

/-- Claim C3: when the combined UTF-8 byte length of `current ++ incoming` is at
most `limitBytes`, `appendWithLimit` returns exactly the concatenation; and an
empty `incoming` returns `current` unchanged for every limit. -/
theorem c3_append_exact_under_limit :
    (∀ (current incoming : List Char) (limitBytes : Nat),
      (utf8Encode (current ++ incoming)).length ≤ limitBytes →
      appendWithLimit current incoming limitBytes = current ++ incoming) ∧
    (∀ (current : List Char) (limitBytes : Nat),
      appendWithLimit current [] limitBytes = current) := by
  constructor
  · intro current incoming limitBytes h
    rw [appendWithLimit]
    by_cases hinc : incoming = []
    · simp [hinc]
    · rw [if_neg hinc, if_pos h]
  · intro current limitBytes
    rfl

/-- Witness for claim C3. -/
theorem c3_append_exact_under_limit_witness :
    appendWithLimit "po".data "ng".data 1024 = "po".data ++ "ng".data ∧
    appendWithLimit "po".data [] 2 = "po".data :=
  ⟨c3_append_exact_under_limit.1 "po".data "ng".data 1024 (by decide),
   c3_append_exact_under_limit.2 "po".data 2⟩

/-- Claim C2: when cancellation was requested and the exit code is non-zero or
absent (`null`), the close handler rejects with "Request cancelled.", never with
the stderr-derived message, whatever stdout and stderr hold. -/
theorem c2_cancellation_precedence (code : Option Int)
    (stdoutBuffer stderrBuffer : String) (h : code ≠ some 0) :
    closeHandler code true stdoutBuffer stderrBuffer =
      .rejected "Request cancelled." := by
  simp [closeHandler, h]

/-- Witness for claim C2: non-zero exit code with non-empty stderr, and an
absent exit code. -/
theorem c2_cancellation_precedence_witness :
    closeHandler (some 1) true "partial output" "stderr noise" =
      .rejected "Request cancelled." ∧
    closeHandler none true "" "" = .rejected "Request cancelled." :=
  ⟨c2_cancellation_precedence (some 1) "partial output" "stderr noise" (by decide),
   c2_cancellation_precedence none "" "" (by decide)⟩

/-- Claim C4: on a non-zero exit code without cancellation, the rejection
message is the trimmed stderr when non-empty, else the generic message, and the
generic message contains the exit code as a substring. -/
theorem c4_nonzero_exit_stderr_message (n : Int) (stdoutBuffer stderrBuffer : String)
    (h : n ≠ 0) :
    closeHandler (some n) false stdoutBuffer stderrBuffer =
      .rejected (if jsTrim stderrBuffer = ""
                 then "MeerAI CLI exited with code " ++ toString n ++ "."
                 else jsTrim stderrBuffer) ∧
    isSubstr (toString n).data
      ("MeerAI CLI exited with code " ++ toString n ++ ".").data = true := by
  constructor
  · by_cases he : jsTrim stderrBuffer = "" <;> simp [closeHandler, h, he, renderExitCode]
  · exact isSubstr_of_decomp _ _ ("MeerAI CLI exited with code ").data (".").data
      (by simp [String.data_append])

/-- Witness for claim C4: exit code 2 with whitespace-only stderr. -/
theorem c4_nonzero_exit_stderr_message_witness :
    closeHandler (some 2) false "out" " \t" =
      .rejected (if jsTrim " \t" = ""
                 then "MeerAI CLI exited with code " ++ toString (2 : Int) ++ "."
                 else jsTrim " \t") ∧
    isSubstr (toString (2 : Int)).data
      ("MeerAI CLI exited with code " ++ toString (2 : Int) ++ ".").data = true :=
  c4_nonzero_exit_stderr_message 2 "out" " \t" (by decide)

/-- Claim C5: on exit code 0 the promise resolves with the accumulated stdout
buffer trimmed of surrounding whitespace, and the `onData` callback received
exactly the raw chunks, in arrival order and untrimmed. -/
theorem c5_zero_exit_resolves_stream (limitBytes : Nat) (chunks : List String)
    (cancelRequested : Bool) (stderrBuffer : String) :
    (runStdoutPhase limitBytes chunks).2 = chunks ∧
    closeHandler (some 0) cancelRequested (runStdoutPhase limitBytes chunks).1
        stderrBuffer =
      .resolved (jsTrim (runStdoutPhase limitBytes chunks).1) := by
  refine ⟨?_, by simp [closeHandler]⟩
  simpa using stdoutFold_onData limitBytes chunks "" []

/-- Claim C9: an exit code of 0 resolves with the trimmed stdout even when
cancellation was requested: the cancellation check is only reached on a
non-zero exit code. -/
theorem c9_zero_exit_trumps_cancellation (cancelRequested : Bool)
    (stdoutBuffer stderrBuffer : String) :
    closeHandler (some 0) cancelRequested stdoutBuffer stderrBuffer =
      .resolved (jsTrim stdoutBuffer) := by
  simp [closeHandler]

/-- Claim C6: the tokenizer splits on whitespace outside quotes and strips
surrounding single or double quotes; on the cited input
`meer ask "hello world" 'x y'` it yields executable `meer` and argument vector
`["ask", "hello world", "x y"]`, and plain whitespace (spaces, tab) splits
unquoted tokens. Stated off the Windows path, where no `.cmd` probing applies. -/
theorem c6_tokenizer_quote_handling (commandExists : String → Bool) :
    parseCommand false commandExists "meer ask \"hello world\" \'x y\'" =
      .ok ⟨"meer", ["ask", "hello world", "x y"]⟩ ∧
    parseCommand false commandExists "a  b\tc" = .ok ⟨"a", ["b", "c"]⟩ :=
  ⟨rfl, rfl⟩

/-- Claim C7: an empty (after trimming) configured command string makes the
pre-spawn phase fail with the `ConfigurationError` message "MeerAI CLI command
is empty."; a non-empty command string whose tokenization yields zero tokens
fails with a `ParseError` naming the command string. Both failures are
`Except.error` values of `askPrepare`, so no spawn request is ever built and no
child process is spawned. -/
theorem c7_prespawn_failures :
    (∀ (isWin32 : Bool) (commandExists : String → Bool) (rawCliCommand question : String),
      jsTrim rawCliCommand = "" →
      askPrepare isWin32 commandExists rawCliCommand question =
        .error (.configurationError "MeerAI CLI command is empty.")) ∧
    (∀ (isWin32 : Bool) (commandExists : String → Bool) (rawCliCommand question : String),
      jsTrim rawCliCommand ≠ "" →
      tokenize (jsTrim rawCliCommand).data = [] →
      askPrepare isWin32 commandExists rawCliCommand question =
        .error (.parseError
          ("Unable to parse MeerAI CLI command: \"" ++ jsTrim rawCliCommand ++ "\""))) := by
  constructor
  · intro isWin32 commandExists rawCliCommand question h
    simp [askPrepare, parseCommand, h]
  · intro isWin32 commandExists rawCliCommand question h1 h2
    simp [askPrepare, parseCommand, h1, h2]

/-- Witness for claim C7: the empty command string, and the single-character
command string `"` on which the tokenizing regexp finds no match. -/
theorem c7_prespawn_failures_witness :
    askPrepare false (fun _ => false) "" "q" =
      .error (.configurationError "MeerAI CLI command is empty.") ∧
    askPrepare false (fun _ => false) "\"" "q" =
      .error (.parseError ("Unable to parse MeerAI CLI command: \"" ++ jsTrim "\"" ++ "\"")) :=
  ⟨c7_prespawn_failures.1 false (fun _ => false) "" "q" (by decide),
   c7_prespawn_failures.2 false (fun _ => false) "\"" "q" (by decide) (by decide)⟩

/-- Claim C8: an ENOENT spawn error is normalized to a message containing the
unresolved executable name, the `meerai.cliCommand` setting key and the working
directory; any error whose code is neither ENOENT nor EINVAL is returned
unchanged. -/
theorem c8_normalize_error_cases (error : JsError)
    (executable cwd originalCommand : String) (args : List String) :
    (error.code = some "ENOENT" →
      isSubstr executable.data
        (normalizeError error executable cwd originalCommand args).message.data = true ∧
      isSubstr "meerai.cliCommand".data
        (normalizeError error executable cwd originalCommand args).message.data = true ∧
      isSubstr cwd.data
        (normalizeError error executable cwd originalCommand args).message.data = true) ∧
    (error.code ≠ some "ENOENT" → error.code ≠ some "EINVAL" →
      normalizeError error executable cwd originalCommand args = error) := by
  constructor
  · intro h
    have hmsg : (normalizeError error executable cwd originalCommand args).message =
        "MeerAI CLI command not found: \"" ++ executable ++
        "\". Update the \"meerai.cliCommand\" setting or ensure the MeerAI CLI is installed. (cwd: "
        ++ cwd ++ ")" := by
      simp [normalizeError, h]
    have hsplit :
        ("\". Update the \"meerai.cliCommand\" setting or ensure the MeerAI CLI is installed. (cwd: "
          : String) =
        "\". Update the \"" ++ "meerai.cliCommand" ++
          "\" setting or ensure the MeerAI CLI is installed. (cwd: " := by
      rfl
    rw [hmsg, hsplit]
    refine ⟨?_, ?_, ?_⟩
    · exact isSubstr_of_decomp _ _ ("MeerAI CLI command not found: \"").data
        (("\". Update the \"" ++ "meerai.cliCommand" ++
          "\" setting or ensure the MeerAI CLI is installed. (cwd: " ++ cwd ++ ")").data)
        (by simp [String.data_append])
    · exact isSubstr_of_decomp _ _
        (("MeerAI CLI command not found: \"" ++ executable ++ "\". Update the \"").data)
        ((("\" setting or ensure the MeerAI CLI is installed. (cwd: " ++ cwd ++ ")").data))
        (by simp [String.data_append])
    · exact isSubstr_of_decomp _ _
        (("MeerAI CLI command not found: \"" ++ executable ++ "\". Update the \"" ++
          "meerai.cliCommand" ++
          "\" setting or ensure the MeerAI CLI is installed. (cwd: ").data)
        ((")" : String).data)
        (by simp [String.data_append])
  · intro h1 h2
    simp [normalizeError, h1, h2]

/-- Witness for claim C8: an ENOENT error is rewrapped with the executable, the
setting key and the cwd in the message; an EPERM error passes through unchanged. -/
theorem c8_normalize_error_cases_witness :
    (isSubstr "meer".data
      (normalizeError ⟨some "ENOENT", "spawn meer ENOENT"⟩ "meer" "/work" "meer" []).message.data
        = true ∧
     isSubstr "meerai.cliCommand".data
      (normalizeError ⟨some "ENOENT", "spawn meer ENOENT"⟩ "meer" "/work" "meer" []).message.data
        = true ∧
     isSubstr "/work".data
      (normalizeError ⟨some "ENOENT", "spawn meer ENOENT"⟩ "meer" "/work" "meer" []).message.data
        = true) ∧
    normalizeError ⟨some "EPERM", "boom"⟩ "meer" "/work" "meer" [] =
      ⟨some "EPERM", "boom"⟩ :=
  ⟨(c8_normalize_error_cases ⟨some "ENOENT", "spawn meer ENOENT"⟩ "meer" "/work" "meer" []).1
      (by decide),
   (c8_normalize_error_cases ⟨some "EPERM", "boom"⟩ "meer" "/work" "meer" []).2
      (by decide) (by decide)⟩

/-- Claim C10: whenever the trimmed configured command resolves to an executable
and argument list, the spawn request built by `ask` carries exactly those
arguments followed by the literal token "ask" and then the caller's question as
one verbatim argv element, with shell interpretation disabled. -/
theorem c10_spawn_argv (isWin32 : Bool) (commandExists : String → Bool)
    (rawCliCommand question executable : String) (args : List String)
    (h : parseCommand isWin32 commandExists (jsTrim rawCliCommand) =
      .ok ⟨executable, args⟩) :
    askPrepare isWin32 commandExists rawCliCommand question =
      .ok ⟨executable, args ++ ["ask", question], false⟩ ∧
    question ∈ args ++ ["ask", question] := by
  refine ⟨?_, by simp⟩
  rw [askPrepare, h]

/-- Witness for claim C10: the default command `meer` and a question containing
spaces and quote characters, passed through as a single argv element. -/
theorem c10_spawn_argv_witness :
    askPrepare false (fun _ => false) "meer" "what does \"x\" do?" =
      .ok ⟨"meer", [] ++ ["ask", "what does \"x\" do?"], false⟩ ∧
    "what does \"x\" do?" ∈ [] ++ ["ask", "what does \"x\" do?"] :=
  c10_spawn_argv false (fun _ => false) "meer" "what does \"x\" do?" "meer" [] rfl
